import Mathlib

/-!
Verification development for the ralfiz-bms licensing and device-provisioning
server. The definitions below are a shallow embedding of the Django views and
models of the repository: timestamps are integer epoch seconds, database rows
are Lean structures, each HTTP view is a pure function from the request inputs
and the server state to a result together with the successor state.
Cryptographic library calls (RSA signing, base64, sha256, secrets.token_hex)
are taken as function parameters or fresh-value parameters, since their bodies
are not part of the repository.
-/

namespace RetailEase

/-- License lifecycle status, from the STATUS_CHOICES of the License model in
licensing/models.py. -/
inductive LicenseStatus
  | active
  | expired
  | revoked
  | suspended
deriving DecidableEq

/-- Modelled from the spec: the field billing_cycle is read by
licensing/views.py and core/admin.py but the field declaration is not among
the source files; spec section 3 lists monthly, yearly, lifetime. -/
inductive BillingCycle
  | monthly
  | yearly
  | lifetime
deriving DecidableEq

/-- The License row, licensing/models.py lines 76-279, restricted to the
fields the claims read. The fields billing_cycle, renewal_count and
last_renewed_at are modelled from the spec (section 3): they are used by
licensing/views.py and core/admin.py but declared outside the given source. -/
structure License where
  status : LicenseStatus
  valid_from : Int
  valid_until : Int
  max_activations : Nat
  current_activations : Nat
  billing_cycle : BillingCycle
  renewal_count : Nat
  last_renewed_at : Option Int
  notes : String
  license_code : String
deriving DecidableEq

/-- Seconds per day; python timedelta days are converted at this rate. -/
def secondsPerDay : Int := 86400

/-- License.is_valid, licensing/models.py lines 204-210: status active and
valid_from ≤ now ≤ valid_until. -/
def License.is_valid (l : License) (now : Int) : Bool :=
  decide (l.status = .active) && decide (l.valid_from ≤ now) && decide (now ≤ l.valid_until)

/-- Modelled from the spec: License.is_in_grace_period is called by
check_license and refresh_license in licensing/views.py but its body is not
among the source files. Spec section 4.C: status active and
valid_until < now ≤ valid_until + graceDays, default grace 7 days. -/
def License.is_in_grace_period (l : License) (now : Int) (graceDays : Int) : Bool :=
  decide (l.status = .active) && decide (l.valid_until < now) &&
    decide (now ≤ l.valid_until + graceDays * secondsPerDay)

/-- Modelled from the spec: the human-readable line License.renew appends to
notes (spec section 4.C). Timestamps are rendered as their integer value. -/
def renewNote (now oldUntil newUntil : Int) : String :=
  "\nRenewed at " ++ toString now ++ ": valid_until " ++ toString oldUntil ++
    " -> " ++ toString newUntil

/-- Modelled from the spec: License.renew is called by renew_license in
licensing/views.py line 328 but its body is not among the source files.
Spec section 4.C: extend valid_until by extendDays, defaulting by
billing_cycle (monthly 30 days, yearly 365 days, lifetime very large),
set status active, increment renewal_count, stamp last_renewed_at now,
append a human-readable line to notes, regenerate license_code, persist.
The regenerated code is passed in as newCode because signing is a
cryptographic library call. The new valid_until is returned alongside the
updated row because the view uses the return value. -/
def License.renew (l : License) (now : Int) (extend_days : Option Int) (newCode : String) :
    Int × License :=
  let d : Int :=
    match extend_days with
    | some d => d
    | none =>
      match l.billing_cycle with
      | .monthly => 30
      | .yearly => 365
      | .lifetime => 36500
  let nv := l.valid_until + d * secondsPerDay
  (nv,
    { l with
      valid_until := nv
      status := .active
      renewal_count := l.renewal_count + 1
      last_renewed_at := some now
      notes := l.notes ++ renewNote now l.valid_until nv
      license_code := newCode })

/-- A LicenseActivation row, licensing/models.py lines 282-299; the
ip_address column is dropped because nothing in the claims reads it. -/
structure LicenseActivation where
  machine_id : String
  machine_name : String
  is_active : Bool
  last_check : Int
deriving DecidableEq

/-- A Counter row, retailease/models.py lines 65-117, restricted to the
fields the claims read. The one-to-one activation foreign key is represented
by the machine_id of the bound activation. -/
structure Counter where
  activation_machine_id : String
  name : String
  is_primary : Bool
deriving DecidableEq

/-- An APIToken row, retailease/models.py lines 281-337. The counter foreign
key is represented by the machine_id of the counter's activation; none means
a NULL counter. -/
structure APIToken where
  token : String
  name : String
  is_active : Bool
  expires_at : Option Int
  counter : Option String
deriving DecidableEq

/-- The server-side state for a single license: the license row, its
activation rows, whether a Business row is registered for it, its counters
and its API tokens. -/
structure ServerState where
  lic : License
  acts : List LicenseActivation
  hasBusiness : Bool
  counters : List Counter
  tokens : List APIToken
deriving DecidableEq

/-- Number of activation rows with is_active true: the quantity the views
recompute with activations.filter(is_active=True).count(). -/
def activeCount (acts : List LicenseActivation) : Nat :=
  (acts.filter (fun a => a.is_active)).length

/-- Set is_active false on the activation row of the given machine. -/
def deactivateMachine (mid : String) (acts : List LicenseActivation) :
    List LicenseActivation :=
  acts.map (fun a => if a.machine_id == mid then { a with is_active := false } else a)

/-- Stamp last_check now, and machine_name when one was supplied, on the
activation row of the given machine. -/
def touchActivation (mid : String) (now : Int) (mname : String)
    (acts : List LicenseActivation) : List LicenseActivation :=
  acts.map (fun a =>
    if a.machine_id == mid then
      { a with
        last_check := now
        machine_name := if mname ≠ "" then mname else a.machine_name }
    else a)

inductive ValidateResult
  | malformedCode
  | revoked
  | suspended
  | expired
  | maxActivations
  | deviceDeactivated
  | ok
deriving DecidableEq

/-- The validate_license view, licensing/views.py lines 21-163, for one
license. The cryptographic code verification, License.validate_license_code
(an RSA library call plus payload date checks), is abstracted into the
boolean sigOk; the request-parsing and key-pair-lookup failure branches are
not modelled. -/
def validate_license (sigOk : Bool) (now : Int) (mid mname : String) (st : ServerState) :
    ValidateResult × ServerState :=
  if sigOk = false then (.malformedCode, st)
  else if st.lic.status = .revoked then (.revoked, st)
  else if st.lic.status = .suspended then (.suspended, st)
  else if st.lic.status = .expired ∨ st.lic.is_valid now = false then
    (.expired, { st with lic := { st.lic with status := .expired } })
  else
    match st.acts.find? (fun a => a.machine_id == mid) with
    | none =>
      let acts1 := st.acts ++ [⟨mid, mname, true, now⟩]
      let cnt := activeCount acts1
      if st.lic.max_activations < cnt then
        (.maxActivations, { st with acts := deactivateMachine mid acts1 })
      else
        (.ok, { st with acts := acts1, lic := { st.lic with current_activations := cnt } })
    | some a =>
      let acts1 := touchActivation mid now mname st.acts
      if a.is_active = false then (.deviceDeactivated, { st with acts := acts1 })
      else (.ok, { st with acts := acts1 })

inductive AuthResult
  | licenseInvalid
  | maxActivations
  | ok (token : String)
deriving DecidableEq

/-- The business, counter and token provisioning tail of the authenticate
view, retailease/views.py lines 240-302: look up the Business; when one
exists, get_or_create the Counter bound to this activation (primary when it
is the first); then get_or_create the APIToken keyed on the license and the
counter, re-enabling with fresh bytes a token found inactive. fresh and
fresh2 stand for the two possible APIToken.generate_token draws; the
device-info columns of Counter are not modelled. -/
def counterKeyOf (st : ServerState) (mid : String) : Option String :=
  if st.hasBusiness then some mid else none

def countersAfter (st : ServerState) (mid mname : String) : List Counter :=
  if st.hasBusiness then
    match st.counters.find? (fun c => c.activation_machine_id == mid) with
    | some _ => st.counters
    | none =>
      st.counters ++
        [⟨mid,
          (if mname ≠ "" then mname else "Counter " ++ toString (st.counters.length + 1)),
          st.counters.length == 0⟩]
  else st.counters

def mintToken (mid mname fresh fresh2 : String) (st : ServerState) :
    AuthResult × ServerState :=
  match st.tokens.find? (fun t => t.counter == counterKeyOf st mid) with
  | none =>
    (.ok fresh,
      { st with
        counters := countersAfter st mid mname
        tokens := st.tokens ++
          [⟨fresh, (if mname ≠ "" then mname else "API Token"), true, none,
            counterKeyOf st mid⟩] })
  | some t =>
    if t.is_active = false then
      (.ok fresh2,
        { st with
          counters := countersAfter st mid mname
          tokens := st.tokens.map (fun x =>
            if x.token == t.token then { x with is_active := true, token := fresh2 } else x) })
    else
      (.ok t.token, { st with counters := countersAfter st mid mname })

/-- The authenticate view, retailease/views.py lines 155-313, for one
license: require License.is_valid; get_or_create the activation; on creation
reject when the cached current_activations has reached max_activations
(deleting the fresh row again, so the state is unchanged), otherwise
increment the cached count; finally mint or fetch the API token. -/
def authenticate (now : Int) (mid mname fresh fresh2 : String) (st : ServerState) :
    AuthResult × ServerState :=
  if st.lic.is_valid now = false then (.licenseInvalid, st)
  else
    match st.acts.find? (fun a => a.machine_id == mid) with
    | none =>
      if st.lic.max_activations ≤ st.lic.current_activations then
        (.maxActivations, st)
      else
        mintToken mid mname fresh fresh2
          { st with
            acts := st.acts ++ [⟨mid, mname, true, now⟩]
            lic := { st.lic with current_activations := st.lic.current_activations + 1 } }
    | some _ =>
      mintToken mid mname fresh fresh2 { st with acts := touchActivation mid now mname st.acts }

inductive DeactivateResult
  | notFound
  | ok
deriving DecidableEq

/-- The deactivate_license view, licensing/views.py lines 532-587: find the
activation of the machine, set is_active false, recount and persist
current_activations. -/
def deactivate_license (mid : String) (st : ServerState) : DeactivateResult × ServerState :=
  match st.acts.find? (fun a => a.machine_id == mid) with
  | none => (.notFound, st)
  | some _ =>
    let acts1 := deactivateMachine mid st.acts
    (.ok, { st with acts := acts1, lic := { st.lic with current_activations := activeCount acts1 } })

inductive CheckResult
  | notActivated
  | expired
  | valid (in_grace renewed : Bool)
deriving DecidableEq

/-- The check_license view, licensing/views.py lines 166-276, for one
license: find the active activation of the machine, stamp last_check, then
report expired when neither valid nor in the grace period, else a valid
response carrying the in_grace_period flag and the renewed flag. -/
def check_license (now : Int) (mid : String) (last_known_expiry : Option Int)
    (st : ServerState) : CheckResult × ServerState :=
  match st.acts.find? (fun a => a.machine_id == mid && a.is_active) with
  | none => (.notActivated, st)
  | some _ =>
    let st1 : ServerState := { st with acts := touchActivation mid now "" st.acts }
    let v := st1.lic.is_valid now
    let g := st1.lic.is_in_grace_period now 7
    let renewed :=
      match last_known_expiry with
      | some e => decide (e < st1.lic.valid_until)
      | none => false
    if v = false ∧ g = false then (.expired, st1) else (.valid g renewed, st1)

inductive RefreshResult
  | revoked
  | suspended
  | deviceDeactivated
  | notActivated
  | expired
  | valid (in_grace : Bool)
deriving DecidableEq

/-- The refresh_license view, licensing/views.py lines 361-529, for one
license: revoked and suspended are reported before the activation lookup; an
activation found inactive is reported device_deactivated; a date-expired
license outside the grace period is reported expired (persisting
status=expired when it was active); otherwise a valid response with the
in_grace_period flag. -/
def refresh_license (now : Int) (mid : String) (st : ServerState) :
    RefreshResult × ServerState :=
  if st.lic.status = .revoked then (.revoked, st)
  else if st.lic.status = .suspended then (.suspended, st)
  else
    match st.acts.find? (fun a => a.machine_id == mid) with
    | none => (.notActivated, st)
    | some a =>
      if a.is_active = false then (.deviceDeactivated, st)
      else
        let st1 : ServerState := { st with acts := touchActivation mid now "" st.acts }
        let g := st1.lic.is_in_grace_period now 7
        let isExpired := decide (st1.lic.valid_until < now)
        let st2 :=
          if isExpired && decide (st1.lic.status = .active) && !g then
            { st1 with lic := { st1.lic with status := .expired } }
          else st1
        if isExpired && !g then (.expired, st2) else (.valid g, st2)

structure RenewResponse where
  old_valid_until : Int
  new_valid_until : Int
  renewal_count : Nat
deriving DecidableEq

inductive RenewResult
  | unauthorized
  | success (resp : RenewResponse)
deriving DecidableEq

/-- The renewal note the renew_license view itself appends,
licensing/views.py line 331; dates are rendered as their integer value and
the optional payment reference is not modelled. -/
def renewViewNote (now oldUntil newUntil : Int) : String :=
  "\n[" ++ toString now ++ "] Renewed from " ++ toString oldUntil ++
    " to " ++ toString newUntil

/-- The renew_license view, licensing/views.py lines 279-358, for one
license: compare the caller's admin_key with the configured key, call
License.renew, append the view's own renewal note, and answer with the old
and new valid_until and the renewal_count. -/
def renew_license (expected_key admin_key : String) (now : Int) (extend_days : Option Int)
    (newCode : String) (l : License) : RenewResult × License :=
  if admin_key ≠ expected_key then (.unauthorized, l)
  else
    let old := l.valid_until
    let r := l.renew now extend_days newCode
    let l2 := { r.2 with notes := r.2.notes ++ renewViewNote now old r.1 }
    (.success ⟨old, r.1, l2.renewal_count⟩, l2)

inductive AuthError
  | authRequired
  | invalidToken
  | tokenExpired
deriving DecidableEq

/-- APIToken.is_valid, retailease/models.py lines 320-326: inactive tokens
are invalid, a token whose expires_at lies strictly before now is invalid,
otherwise validity is the validity of the related license (passed
explicitly here). -/
def APIToken.is_valid (t : APIToken) (lic : License) (now : Int) : Bool :=
  if t.is_active = false then false
  else if (match t.expires_at with | some e => decide (e < now) | none => false) then false
  else lic.is_valid now

/-- The token_required decorator, retailease/views.py lines 22-59. A .ok
result means the wrapped handler runs with the token; an .error result is
the 401 response and the handler is never invoked. The header is handled at
the level of its character list so that the startswith test and the
seven-character slice of the source are modelled exactly. -/
def token_required (tokens : List APIToken) (lic : License) (now : Int)
    (header : Option String) : Except AuthError APIToken :=
  let h := (header.getD "").data
  if h.take 7 = "Bearer ".data then
    match tokens.find? (fun t => t.token.data == h.drop 7) with
    | none => .error .invalidToken
    | some t =>
      if t.is_valid lic now = false then .error .tokenExpired
      else .ok t
  else .error .authRequired

/-- The logout view, retailease/views.py lines 316-323: set is_active false
on the caller's token row. -/
def logout (tokens : List APIToken) (t : APIToken) : List APIToken :=
  tokens.map (fun x => if x.token == t.token then { x with is_active := false } else x)

inductive UploadResult
  | businessNotFound
  | noFile
  | success (checksum : String) (file_size : Nat)
deriving DecidableEq

/-- The upload_backup view, retailease/views.py lines 518-617. The uploaded
bytes are a list of naturals and sha256hex stands for hashlib.sha256
hexdigest. A missing checksum form field arrives as the empty string, which
is what request.POST.get defaults to and what the falsiness test of the
source checks. -/
def upload_backup (sha256hex : List Nat → String) (hasBusiness hasFile : Bool)
    (fileBytes : List Nat) (checksum : String) : UploadResult :=
  if hasBusiness = false then .businessNotFound
  else if hasFile = false then .noFile
  else
    let ck := if checksum = "" then sha256hex fileBytes else checksum
    .success ck fileBytes.length

/-- One mutating request against the state of a license, for the invariant
claims about sequences of operations. -/
inductive Op
  | validate (sigOk : Bool) (now : Int) (mid mname : String)
  | auth (now : Int) (mid mname fresh fresh2 : String)
  | deactivate (mid : String)

/-- Successor state of one request. -/
def applyOp (st : ServerState) (op : Op) : ServerState :=
  match op with
  | .validate sigOk now mid mname => (validate_license sigOk now mid mname st).2
  | .auth now mid mname f1 f2 => (authenticate now mid mname f1 f2 st).2
  | .deactivate mid => (deactivate_license mid st).2

/-- Successor state of a sequence of requests. -/
def applyOps (st : ServerState) (ops : List Op) : ServerState :=
  ops.foldl applyOp st

/-- The cached current_activations column agrees with the stored rows. -/
def consistentState (st : ServerState) : Prop :=
  st.lic.current_activations = activeCount st.acts

instance (st : ServerState) : Decidable (consistentState st) :=
  inferInstanceAs (Decidable (st.lic.current_activations = activeCount st.acts))

/-- JSON value: a string or a number, the only shapes the license payload
uses. -/
inductive JVal
  | str (s : String)
  | num (n : Nat)

/-- One lowercase hexadecimal digit. -/
def hexDigitChar (n : Nat) : Char :=
  if n < 10 then Char.ofNat (48 + n) else Char.ofNat (87 + n)

/-- Four lowercase hex digits, the way python json unicode escapes render a
code point. -/
def hex4 (n : Nat) : String :=
  String.mk [hexDigitChar (n / 4096 % 16), hexDigitChar (n / 256 % 16),
    hexDigitChar (n / 16 % 16), hexDigitChar (n % 16)]

/-- Escape one character the way python json.dumps with its default
ensure_ascii does: quote and backslash get a backslash, the usual control
shorthands apply, every other character outside the printable ASCII range is
a unicode escape (astral code points as a surrogate pair). -/
def escapeJsonChar (c : Char) : String :=
  if c = '"' then "\\\""
  else if c = '\\' then "\\\\"
  else if c = Char.ofNat 8 then "\\b"
  else if c = Char.ofNat 9 then "\\t"
  else if c = Char.ofNat 10 then "\\n"
  else if c = Char.ofNat 12 then "\\f"
  else if c = Char.ofNat 13 then "\\r"
  else if c.toNat < 32 ∨ 126 < c.toNat then
    if c.toNat < 65536 then "\\u" ++ hex4 c.toNat
    else
      let v := c.toNat - 65536
      "\\u" ++ hex4 (55296 + v / 1024) ++ "\\u" ++ hex4 (56320 + v % 1024)
  else String.singleton c

def escapeJson (s : String) : String :=
  String.join (s.data.map escapeJsonChar)

/-- A JSON string literal. -/
def jsonString (s : String) : String := "\"" ++ escapeJson s ++ "\""

def renderJVal : JVal → String
  | .str s => jsonString s
  | .num n => toString n

def renderPair (p : String × JVal) : String :=
  jsonString p.1 ++ ":" ++ renderJVal p.2

/-- Compact JSON object in the given key order: python json.dumps with
separators comma and colon and no key sorting. -/
def dumpsCompact (ps : List (String × JVal)) : String :=
  "\x7b" ++ String.intercalate "," (ps.map renderPair) ++ "\x7d"

/-- Lexicographic order on character lists by code point, the order python
uses to compare strings. -/
def charListLt : List Char → List Char → Bool
  | [], [] => false
  | [], _ :: _ => true
  | _ :: _, [] => false
  | a :: as, b :: bs =>
    if a.toNat < b.toNat then true
    else if b.toNat < a.toNat then false
    else charListLt as bs

/-- Python's string order, on the underlying characters. -/
def keyLt (a b : String) : Bool := charListLt a.data b.data

/-- Insert a pair into a key-sorted list, keeping it sorted ascending. -/
def insertPair (p : String × JVal) : List (String × JVal) → List (String × JVal)
  | [] => [p]
  | q :: qs => if keyLt p.1 q.1 then p :: q :: qs else q :: insertPair p qs

/-- Sort the pairs by key ascending, as python sorted does on dict items. -/
def sortPairs (ps : List (String × JVal)) : List (String × JVal) :=
  ps.foldr insertPair []

/-- Compact JSON object with sorted keys: python json.dumps with sort_keys
true and compact separators. -/
def dumpsSortedCompact (ps : List (String × JVal)) : String :=
  dumpsCompact (sortPairs ps)

/-- The dynamic inputs of License.generate_license_code: the field values the
payload dict is built from, already rendered to the strings the source
interpolates (str of the uuid, isoformat of the timestamps). -/
structure LicensePayloadData where
  lid : String
  cname : String
  cemail : String
  ltype : String
  vfrom : String
  vuntil : String
  iat : String
  maxact : Nat

/-- License.generate_license_code, licensing/models.py lines 158-202. b64
stands for base64.b64encode of utf-8 bytes read back as a string, sha256hex
for hashlib.sha256 hexdigest (lowercase hex), and sign for the RSA-PSS
signing call whose raw output is then base64 encoded like the source does. -/
def generate_license_code (b64 sha256hex sign : String → String)
    (d : LicensePayloadData) : String :=
  let payload_json := dumpsSortedCompact
    [("lid", .str d.lid), ("cname", .str d.cname), ("cemail", .str d.cemail),
     ("ltype", .str d.ltype), ("vfrom", .str d.vfrom), ("vuntil", .str d.vuntil),
     ("maxact", .num d.maxact), ("iat", .str d.iat)]
  let license_json := dumpsCompact
    [("p", .str (b64 payload_json)), ("s", .str (b64 (sign payload_json))),
     ("v", .num 1)]
  let license_code := b64 license_json
  let checksum := ((sha256hex license_code).take 8).toUpper
  "REP-" ++ checksum ++ "-" ++ license_code

/-- The wire format exactly as the spec words it in section 6.1: REP, dash,
the first 8 hex chars of the sha256 of the envelope uppercased, dash, the
envelope; the envelope is base64 of the compact JSON object with keys p, s, v
in that order; the payload is compact JSON whose keys appear in the sorted
order cemail, cname, iat, lid, ltype, maxact, vfrom, vuntil. -/
def specLicenseCodeFormat (b64 sha256hex sign : String → String)
    (d : LicensePayloadData) : String :=
  let payload := "\x7b" ++ String.intercalate ","
    ["\"cemail\":" ++ jsonString d.cemail,
     "\"cname\":" ++ jsonString d.cname,
     "\"iat\":" ++ jsonString d.iat,
     "\"lid\":" ++ jsonString d.lid,
     "\"ltype\":" ++ jsonString d.ltype,
     "\"maxact\":" ++ toString d.maxact,
     "\"vfrom\":" ++ jsonString d.vfrom,
     "\"vuntil\":" ++ jsonString d.vuntil] ++ "\x7d"
  let envelope := b64 ("\x7b" ++ String.intercalate ","
    ["\"p\":" ++ jsonString (b64 payload),
     "\"s\":" ++ jsonString (b64 (sign payload)),
     "\"v\":1"] ++ "\x7d")
  "REP-" ++ ((sha256hex envelope).take 8).toUpper ++ "-" ++ envelope

/-- A license active on the integer time window 0 to 8640000 with two
activation slots, used by the concrete scenarios. -/
def cexLicense : License :=
  ⟨.active, 0, 8640000, 2, 0, .yearly, 0, none, "", ""⟩

/-- A stored API token whose expires_at equals the current instant of the
boundary scenario. -/
def cexToken : APIToken := ⟨"t", "", true, some 0, none⟩

/-- A stored API token with no expiry, used by the witnesses. -/
def cexValidToken : APIToken := ⟨"w", "", true, none, none⟩

/-- Fresh state for cexLicense: no activations, no business, no tokens. -/
def cexState : ServerState := ⟨cexLicense, [], false, [], []⟩

/-- The states of scenario S2 of the spec, step by step: validate M1,
validate M2, the cap-rejected validate M3, then deactivate M1. -/
def s2AfterM1 : ServerState := (validate_license true 50 "M1" "" cexState).2

def s2AfterM2 : ServerState := (validate_license true 50 "M2" "" s2AfterM1).2

def s2AfterReject : ServerState := (validate_license true 50 "M3" "" s2AfterM2).2

def s2AfterDeactivate : ServerState := (deactivate_license "M1" s2AfterReject).2

/-- A license in its grace window at instant 150 (valid until 100), with an
active activation for machine G1. -/
def graceLicense : License := ⟨.active, 0, 100, 2, 1, .monthly, 0, none, "", ""⟩

def graceState : ServerState := ⟨graceLicense, [⟨"G1", "", true, 0⟩], false, [], []⟩

/-- A state with one activation for machine M1, for the refresh witness. -/
def c3State : ServerState := ⟨cexLicense, [⟨"M1", "", true, 0⟩], false, [], []⟩

/-! ### Helper lemmas -/

theorem activeCount_nil : activeCount [] = 0 := rfl

theorem activeCount_cons (a : LicenseActivation) (t : List LicenseActivation) :
    activeCount (a :: t) = (if a.is_active then 1 else 0) + activeCount t := by
  cases h : a.is_active <;> simp [activeCount, List.filter_cons, h, Nat.add_comm]

theorem activeCount_append_one (acts : List LicenseActivation) (a : LicenseActivation) :
    activeCount (acts ++ [a]) = activeCount acts + (if a.is_active then 1 else 0) := by
  cases h : a.is_active <;> simp [activeCount, List.filter_append, List.filter_cons, h]

theorem activeCount_map_preserve (f : LicenseActivation → LicenseActivation)
    (h : ∀ a, (f a).is_active = a.is_active) (acts : List LicenseActivation) :
    activeCount (acts.map f) = activeCount acts := by
  induction acts with
  | nil => rfl
  | cons a t ih => simp [activeCount_cons, h a, ih]

theorem activeCount_touch (mid : String) (now : Int) (mname : String)
    (acts : List LicenseActivation) :
    activeCount (touchActivation mid now mname acts) = activeCount acts := by
  apply activeCount_map_preserve
  intro a
  by_cases h : (a.machine_id == mid) = true <;> simp [h]

theorem activeCount_map_le (f : LicenseActivation → LicenseActivation)
    (h : ∀ a, (f a).is_active = true → a.is_active = true) (acts : List LicenseActivation) :
    activeCount (acts.map f) ≤ activeCount acts := by
  induction acts with
  | nil => exact Nat.le_refl 0
  | cons a t ih =>
    rw [List.map_cons, activeCount_cons, activeCount_cons]
    by_cases hf : (f a).is_active = true
    · simp [hf, h a hf]
      omega
    · simp only [hf, if_neg]
      cases a.is_active <;> simp <;> omega

theorem activeCount_deactivate_le (mid : String) (acts : List LicenseActivation) :
    activeCount (deactivateMachine mid acts) ≤ activeCount acts := by
  apply activeCount_map_le
  intro a
  by_cases h : (a.machine_id == mid) = true <;> simp [h]

theorem deactivateMachine_no_match (mid : String) (acts : List LicenseActivation)
    (h : ∀ a ∈ acts, ¬ (a.machine_id == mid) = true) :
    deactivateMachine mid acts = acts := by
  unfold deactivateMachine
  induction acts with
  | nil => rfl
  | cons a t ih =>
    rw [List.map_cons, if_neg (h a (by simp)), ih]
    intro x hx
    exact h x (by simp [hx])

theorem mintToken_acts (mid mname f1 f2 : String) (st : ServerState) :
    (mintToken mid mname f1 f2 st).2.acts = st.acts := by
  unfold mintToken
  cases h : st.tokens.find? (fun t => t.counter == counterKeyOf st mid) with
  | none => rfl
  | some t => by_cases ha : t.is_active = false <;> simp [ha]

theorem mintToken_lic (mid mname f1 f2 : String) (st : ServerState) :
    (mintToken mid mname f1 f2 st).2.lic = st.lic := by
  unfold mintToken
  cases h : st.tokens.find? (fun t => t.counter == counterKeyOf st mid) with
  | none => rfl
  | some t => by_cases ha : t.is_active = false <;> simp [ha]

theorem deactivateMachine_append (mid : String) (acts : List LicenseActivation)
    (a : LicenseActivation) :
    deactivateMachine mid (acts ++ [a]) =
      deactivateMachine mid acts ++
        [if a.machine_id == mid then { a with is_active := false } else a] := by
  simp [deactivateMachine]

theorem validate_consistent (sigOk : Bool) (now : Int) (mid mname : String)
    (st : ServerState) (hc : consistentState st) :
    consistentState (validate_license sigOk now mid mname st).2 := by
  unfold consistentState at *
  simp only [validate_license]
  split
  · exact hc
  split
  · exact hc
  split
  · exact hc
  split
  · exact hc
  split
  next hfind =>
    split
    next hover =>
      have hnone := List.find?_eq_none.mp hfind
      rw [deactivateMachine_append, deactivateMachine_no_match mid st.acts hnone,
        if_pos (by simp), activeCount_append_one]
      simpa using hc
    next hfit => rfl
  next a hfind =>
    split
    · rw [activeCount_touch]; exact hc
    · rw [activeCount_touch]; exact hc

theorem auth_consistent (now : Int) (mid mname f1 f2 : String) (st : ServerState)
    (hc : consistentState st) :
    consistentState (authenticate now mid mname f1 f2 st).2 := by
  unfold consistentState at *
  simp only [authenticate]
  split
  · exact hc
  split
  next hfind =>
    split
    · exact hc
    next h2 =>
      rw [mintToken_lic, mintToken_acts]
      rw [activeCount_append_one]
      simp [hc]
  next a hfind =>
    rw [mintToken_lic, mintToken_acts]
    rw [activeCount_touch]
    exact hc

theorem deact_consistent (mid : String) (st : ServerState) (hc : consistentState st) :
    consistentState (deactivate_license mid st).2 := by
  unfold consistentState at *
  simp only [deactivate_license]
  split
  · exact hc
  · rfl

theorem consistent_applyOp (st : ServerState) (op : Op) (hc : consistentState st) :
    consistentState (applyOp st op) := by
  cases op with
  | validate s n m mn => exact validate_consistent s n m mn st hc
  | auth n m mn f1 f2 => exact auth_consistent n m mn f1 f2 st hc
  | deactivate m => exact deact_consistent m st hc

theorem max_applyOp (st : ServerState) (op : Op) :
    (applyOp st op).lic.max_activations = st.lic.max_activations := by
  cases op with
  | validate s n m mn =>
    simp only [applyOp, validate_license]
    split
    · rfl
    split
    · rfl
    split
    · rfl
    split
    · rfl
    split
    · split <;> rfl
    · split <;> rfl
  | auth n m mn f1 f2 =>
    simp only [applyOp, authenticate]
    split
    · rfl
    split
    · split
      · rfl
      · rw [mintToken_lic]
    · rw [mintToken_lic]
  | deactivate m =>
    simp only [applyOp, deactivate_license]
    split <;> rfl

theorem cap_applyOp (st : ServerState) (op : Op) (hc : consistentState st)
    (hcap : activeCount st.acts ≤ st.lic.max_activations) :
    activeCount (applyOp st op).acts ≤ (applyOp st op).lic.max_activations := by
  rw [max_applyOp]
  cases op with
  | validate s n m mn =>
    simp only [applyOp, validate_license]
    split
    · exact hcap
    split
    · exact hcap
    split
    · exact hcap
    split
    · exact hcap
    split
    next hfind =>
      split
      next hover =>
        have hnone := List.find?_eq_none.mp hfind
        rw [deactivateMachine_append, deactivateMachine_no_match m st.acts hnone,
          if_pos (by simp), activeCount_append_one]
        simpa using hcap
      next hfit => exact Nat.le_of_not_lt hfit
    next a hfind =>
      split
      · rw [activeCount_touch]; exact hcap
      · rw [activeCount_touch]; exact hcap
  | auth n m mn f1 f2 =>
    simp only [applyOp, authenticate]
    split
    · exact hcap
    split
    next hfind =>
      split
      · exact hcap
      next h2 =>
        rw [mintToken_acts]
        rw [activeCount_append_one]
        unfold consistentState at hc
        simp
        omega
    next a hfind =>
      rw [mintToken_acts]
      rw [activeCount_touch]
      exact hcap
  | deactivate m =>
    simp only [applyOp, deactivate_license]
    split
    · exact hcap
    · exact Nat.le_trans (activeCount_deactivate_le m st.acts) hcap

theorem invariant_applyOps (st : ServerState) (ops : List Op)
    (hc : consistentState st) (hcap : activeCount st.acts ≤ st.lic.max_activations) :
    consistentState (applyOps st ops) ∧
      activeCount (applyOps st ops).acts ≤ (applyOps st ops).lic.max_activations := by
  induction ops generalizing st with
  | nil => exact ⟨hc, hcap⟩
  | cons op rest ih =>
    exact ih (applyOp st op) (consistent_applyOp st op hc) (cap_applyOp st op hc hcap)

/-! ### Claim theorems -/

/-- Claim C9 (confirmed): generate_license_code produces exactly the wire
format stated by the spec: the string REP, a dash, the first 8 uppercase hex
characters of the sha256 of the base64 envelope, a dash, then the envelope,
where the envelope is base64 of the compact JSON object with keys p (base64
payload), s (base64 signature), v equal to 1, and the payload is compact JSON
whose keys appear in the sorted order cemail, cname, iat, lid, ltype, maxact,
vfrom, vuntil. -/
theorem license_code_wire_format (b64 sha256hex sign : String → String)
    (d : LicensePayloadData) :
    generate_license_code b64 sha256hex sign d = specLicenseCodeFormat b64 sha256hex sign d :=
  rfl

/-- Claim C5 (counterexample): a client-supplied checksum that differs from
the server's own sha256 of the uploaded bytes is not rejected: upload_backup
answers success and persists the client value unchanged, so no
ChecksumMismatch outcome exists. -/
theorem upload_checksum_unverified_cex :
    upload_backup (fun _ => "0000") true true [1, 2, 3] "deadbeef" = .success "deadbeef" 3
    ∧ (fun _ : List Nat => "0000") [1, 2, 3] ≠ "deadbeef" :=
  ⟨rfl, by decide⟩

/-- Claim C5 (amended): the server never verifies a supplied checksum. When
the checksum form field is non-empty the upload succeeds and that client
value is persisted as given; only when the field is absent (the empty string)
does the server compute sha256 over the uploaded bytes itself and persist its
own value. -/
theorem upload_checksum_persistence (sha256hex : List Nat → String)
    (fileBytes : List Nat) (checksum : String) :
    upload_backup sha256hex true true fileBytes checksum =
      .success (if checksum = "" then sha256hex fileBytes else checksum) fileBytes.length :=
  rfl

/-- Claim C7 (confirmed): if the cached current_activations column equals the
number of active activation rows when a validate, authenticate or deactivate
request starts, it equals it again when the request completes. -/
theorem cached_count_reestablished (st : ServerState) (op : Op)
    (hc : consistentState st) : consistentState (applyOp st op) :=
  consistent_applyOp st op hc

/-- Witness for cached_count_reestablished at a concrete state and request. -/
theorem cached_count_reestablished_witness :
    consistentState (applyOp cexState (Op.validate true 50 "W" "")) :=
  cached_count_reestablished cexState (Op.validate true 50 "W" "") (by decide)

/-- Claim C6 (confirmed): from a state whose cached count is consistent and
within the cap, after any sequence of validate, authenticate and deactivate
requests the number of active activation rows never exceeds max_activations;
and a validate or authenticate for a new machine while the active count has
reached the cap is rejected with the maximum-activations error and leaves the
number of active activations unchanged. -/
theorem activation_cap_invariant (st : ServerState) (ops : List Op)
    (hc : consistentState st)
    (hcap : activeCount st.acts ≤ st.lic.max_activations) :
    (activeCount (applyOps st ops).acts ≤ (applyOps st ops).lic.max_activations)
    ∧ (∀ now mid mname, st.lic.is_valid now = true →
        st.acts.find? (fun a => a.machine_id == mid) = none →
        activeCount st.acts = st.lic.max_activations →
        (validate_license true now mid mname st).1 = .maxActivations ∧
          activeCount (validate_license true now mid mname st).2.acts = activeCount st.acts)
    ∧ (∀ now mid mname f1 f2, st.lic.is_valid now = true →
        st.acts.find? (fun a => a.machine_id == mid) = none →
        activeCount st.acts = st.lic.max_activations →
        (authenticate now mid mname f1 f2 st).1 = .maxActivations ∧
          (authenticate now mid mname f1 f2 st).2 = st) := by
  refine ⟨(invariant_applyOps st ops hc hcap).2, ?_, ?_⟩
  · intro now mid mname hv hfind hfull
    simp only [License.is_valid, Bool.and_eq_true, decide_eq_true_eq] at hv
    obtain ⟨⟨hs, hf⟩, hu⟩ := hv
    have hnone := List.find?_eq_none.mp hfind
    have hcount : activeCount (st.acts ++ [⟨mid, mname, true, now⟩]) =
        activeCount st.acts + 1 := by
      rw [activeCount_append_one]; simp
    simp only [validate_license]
    rw [if_neg (by simp), if_neg (by simp [hs]), if_neg (by simp [hs]),
      if_neg (by simp [hs, License.is_valid, hf, hu]), hfind]
    simp only []
    rw [if_pos (by rw [hcount, hfull]; omega)]
    refine ⟨rfl, ?_⟩
    rw [deactivateMachine_append, deactivateMachine_no_match mid st.acts hnone,
      if_pos (by simp), activeCount_append_one]
    simp
  · intro now mid mname f1 f2 hv hfind hfull
    have hceq : st.lic.current_activations = activeCount st.acts := hc
    simp only [authenticate]
    rw [if_neg (by simp [hv]), hfind]
    simp only []
    rw [if_pos (by rw [hceq, hfull])]
    exact ⟨rfl, rfl⟩

/-- Witness for activation_cap_invariant at a concrete state and op list. -/
theorem activation_cap_invariant_witness :
    activeCount (applyOps cexState
        [Op.validate true 50 "M1" "", Op.auth 50 "M2" "" "t1" "t2",
          Op.validate true 50 "M3" ""]).acts ≤
      (applyOps cexState
        [Op.validate true 50 "M1" "", Op.auth 50 "M2" "" "t1" "t2",
          Op.validate true 50 "M3" ""]).lic.max_activations :=
  (activation_cap_invariant cexState
    [Op.validate true 50 "M1" "", Op.auth 50 "M2" "" "t1" "t2",
      Op.validate true 50 "M3" ""] (by decide) (by decide)).1

/-- Claim C8 (counterexample): running scenario S2 of the spec on the code
(max_activations two; validate M1 and M2 succeed; validate M3 is rejected
with the maximum-activations error; deactivate M1 succeeds), the subsequent
validate by M3 does not return ok: it is answered with the
activation-deactivated error, because the rejected attempt left an inactive
activation row for M3. -/
theorem deactivate_frees_slot_cex :
    (validate_license true 50 "M1" "" cexState).1 = .ok
    ∧ (validate_license true 50 "M2" "" s2AfterM1).1 = .ok
    ∧ (validate_license true 50 "M3" "" s2AfterM2).1 = .maxActivations
    ∧ (deactivate_license "M1" s2AfterReject).1 = .ok
    ∧ (validate_license true 50 "M3" "" s2AfterDeactivate).1 = .deviceDeactivated
    ∧ ValidateResult.deviceDeactivated ≠ ValidateResult.ok :=
  ⟨rfl, rfl, rfl, rfl, rfl, by decide⟩

/-- Claim C8 (amended): deactivating M1 does free the slot, with one active
activation remaining, and a fresh machine M4 then validates successfully; but
the retried validate by M3 returns the activation-deactivated error rather
than valid true, because the cap-rejected attempt persisted an inactive
activation row for M3. -/
theorem deactivate_frees_slot_amended :
    activeCount s2AfterDeactivate.acts = 1
    ∧ (validate_license true 50 "M4" "" s2AfterDeactivate).1 = .ok
    ∧ (validate_license true 50 "M3" "" s2AfterDeactivate).1 = .deviceDeactivated :=
  ⟨rfl, rfl, rfl⟩

/-- Claim C2 (confirmed): with the correct admin key, renew_license answers
success carrying the old valid_until, the new valid_until and the raised
renewal_count. With an explicit extend_days of d it extends valid_until by
exactly d days, leaves valid_from unchanged, sets status active, increments
renewal_count by exactly one, stamps last_renewed_at now, and appends the
renewal lines to notes. An omitted extend_days defaults by billing cycle:
monthly to 30 days, yearly to 365 days. -/
theorem renew_extends_validity (l : License) (now : Int) (expected admin : String)
    (newCode : String) (hkey : admin = expected) :
    (∀ d : Int,
      (renew_license expected admin now (some d) newCode l).1 =
        .success ⟨l.valid_until, l.valid_until + d * secondsPerDay, l.renewal_count + 1⟩
      ∧ (renew_license expected admin now (some d) newCode l).2.valid_until =
          l.valid_until + d * secondsPerDay
      ∧ (renew_license expected admin now (some d) newCode l).2.valid_from = l.valid_from
      ∧ (renew_license expected admin now (some d) newCode l).2.status = .active
      ∧ (renew_license expected admin now (some d) newCode l).2.renewal_count =
          l.renewal_count + 1
      ∧ (renew_license expected admin now (some d) newCode l).2.last_renewed_at = some now
      ∧ (renew_license expected admin now (some d) newCode l).2.notes =
          l.notes ++ renewNote now l.valid_until (l.valid_until + d * secondsPerDay)
            ++ renewViewNote now l.valid_until (l.valid_until + d * secondsPerDay))
    ∧ (l.billing_cycle = .monthly →
        (renew_license expected admin now none newCode l).2.valid_until =
          l.valid_until + 30 * secondsPerDay)
    ∧ (l.billing_cycle = .yearly →
        (renew_license expected admin now none newCode l).2.valid_until =
          l.valid_until + 365 * secondsPerDay) := by
  subst hkey
  refine ⟨?_, ?_, ?_⟩
  · intro d
    simp [renew_license, License.renew]
  · intro h
    simp [renew_license, License.renew, h]
  · intro h
    simp [renew_license, License.renew, h]

/-- Witness for renew_extends_validity at a concrete license and duration. -/
theorem renew_extends_validity_witness :
    (renew_license "k" "k" 100 (some 10) "c" cexLicense).2.valid_until =
      cexLicense.valid_until + 10 * secondsPerDay :=
  (((renew_extends_validity cexLicense 100 "k" "k" "c" rfl).1 10).2).1

theorem find?_conj {α : Type} (p q : α → Bool) (l : List α) (a : α)
    (h : l.find? p = some a) (hq : q a = true) :
    l.find? (fun x => p x && q x) = some a := by
  induction l with
  | nil => simp at h
  | cons x t ih =>
    by_cases hp : p x = true
    · rw [List.find?_cons_of_pos t hp] at h
      cases h
      rw [List.find?_cons_of_pos]
      simp [hp, hq]
    · rw [List.find?_cons_of_neg t hp] at h
      rw [List.find?_cons_of_neg t (by simp [hp])]
      exact ih h

/-- Claim C3 (confirmed): for a license with an activation row for the
requesting machine, refresh_license always answers a license-state outcome
with an authoritative status: revoked when the row says revoked, suspended
when suspended, the device-deactivated status when the machine's activation
is inactive, expired when the date has passed outside the grace window, and a
valid response otherwise; it never reports the machine as not activated, and
being a total case split it never turns a license-state outcome into a
server error. -/
theorem refresh_reports_authoritative_status (st : ServerState) (now : Int)
    (mid : String) (a : LicenseActivation)
    (hfind : st.acts.find? (fun x => x.machine_id == mid) = some a) :
    ((st.lic.status = .revoked → (refresh_license now mid st).1 = .revoked)
    ∧ (st.lic.status = .suspended → (refresh_license now mid st).1 = .suspended)
    ∧ (st.lic.status ≠ .revoked → st.lic.status ≠ .suspended → a.is_active = false →
        (refresh_license now mid st).1 = .deviceDeactivated)
    ∧ (st.lic.status ≠ .revoked → st.lic.status ≠ .suspended → a.is_active = true →
        st.lic.valid_until < now → st.lic.is_in_grace_period now 7 = false →
        (refresh_license now mid st).1 = .expired)
    ∧ (st.lic.status ≠ .revoked → st.lic.status ≠ .suspended → a.is_active = true →
        (now ≤ st.lic.valid_until ∨ st.lic.is_in_grace_period now 7 = true) →
        (refresh_license now mid st).1 = .valid (st.lic.is_in_grace_period now 7))
    ∧ (refresh_license now mid st).1 ≠ .notActivated) := by
  refine ⟨?_, ?_, ?_, ?_, ?_, ?_⟩
  · intro h
    simp [refresh_license, h]
  · intro h
    simp [refresh_license, h]
  · intro h1 h2 ha
    simp [refresh_license, h1, h2, hfind, ha]
  · intro h1 h2 ha hlt hg
    simp [refresh_license, h1, h2, hfind, ha, hlt, hg]
  · intro h1 h2 ha h
    rcases h with h | h
    · simp [refresh_license, h1, h2, hfind, ha, not_lt.mpr h]
    · simp [refresh_license, h1, h2, hfind, ha, h]
  · by_cases h1 : st.lic.status = .revoked
    · simp [refresh_license, h1]
    by_cases h2 : st.lic.status = .suspended
    · simp [refresh_license, h1, h2]
    by_cases ha : a.is_active = false
    · simp [refresh_license, h1, h2, hfind, ha]
    · have ha2 : a.is_active = true := by simpa using ha
      simp only [refresh_license, h1, h2, hfind, ha2]
      simp only [if_false, ite_false, Bool.false_eq_true]
      split <;> simp
      split <;> simp

/-- Witness for refresh_reports_authoritative_status at a concrete state. -/
theorem refresh_reports_authoritative_status_witness :
    (refresh_license 50 "M1" c3State).1 ≠ RefreshResult.notActivated :=
  (refresh_reports_authoritative_status c3State 50 "M1" ⟨"M1", "", true, 0⟩
    rfl).2.2.2.2.2

/-- Claim C4 (confirmed): the grace predicate used by check and refresh holds
exactly when the license status is active and valid_until < now and
now ≤ valid_until + 7 days, and a license inside this window with an active
activation for the requesting machine is treated as operational: check
answers a valid response with the in-grace flag true, and refresh answers a
valid response with the in-grace flag true. -/
theorem grace_period_window_operational (st : ServerState) (now : Int)
    (mid : String) (a : LicenseActivation)
    (hfind : st.acts.find? (fun x => x.machine_id == mid) = some a)
    (hact : a.is_active = true)
    (hg : st.lic.is_in_grace_period now 7 = true) :
    (∀ l : License, l.is_in_grace_period now 7 = true ↔
      (l.status = .active ∧ l.valid_until < now ∧ now ≤ l.valid_until + 7 * secondsPerDay))
    ∧ (check_license now mid none st).1 = .valid true false
    ∧ (refresh_license now mid st).1 = .valid true := by
  have hiff : ∀ l : License, l.is_in_grace_period now 7 = true ↔
      (l.status = .active ∧ l.valid_until < now ∧ now ≤ l.valid_until + 7 * secondsPerDay) := by
    intro l
    simp [License.is_in_grace_period, and_assoc]
  obtain ⟨hs, hlt, hle⟩ := (hiff st.lic).mp hg
  refine ⟨hiff, ?_, ?_⟩
  · have hfind2 : st.acts.find? (fun x => x.machine_id == mid && x.is_active) = some a :=
      find?_conj _ _ _ _ hfind hact
    simp [check_license, hfind2, hg]
  · simp [refresh_license, hs, hfind, hact, hg]

/-- Witness for grace_period_window_operational at a concrete state inside
the window. -/
theorem grace_period_window_operational_witness :
    (check_license 150 "G1" none graceState).1 = CheckResult.valid true false :=
  (grace_period_window_operational graceState 150 "G1" ⟨"G1", "", true, 0⟩
    rfl rfl (by decide)).2.1

/-- Claim C10 (confirmed): on a license with no Business row, authenticate
keys the APIToken lookup only on the license with a NULL counter, so two
authenticate calls from distinct machines (both within the activation cap)
receive the same token string: the first call mints it and the second call
finds and returns the very same row, which carries no machine binding at
all, so it stays valid for both machines until the row is rotated or
disabled. -/
theorem shared_token_without_business (st : ServerState) (now : Int)
    (m1 m2 n1 n2 f1 f1b f2 f2b : String)
    (hb : st.hasBusiness = false) (ht : st.tokens = []) (ha : st.acts = [])
    (hcur : st.lic.current_activations = 0) (hmax : 2 ≤ st.lic.max_activations)
    (hv : st.lic.is_valid now = true) (hne : m1 ≠ m2) :
    (authenticate now m1 n1 f1 f1b st).1 = .ok f1
    ∧ (authenticate now m2 n2 f2 f2b (authenticate now m1 n1 f1 f1b st).2).1 = .ok f1
    ∧ (authenticate now m2 n2 f2 f2b (authenticate now m1 n1 f1 f1b st).2).2.tokens =
        [⟨f1, (if n1 ≠ "" then n1 else "API Token"), true, none, none⟩] := by
  obtain ⟨lic, acts, hbz, cts, tks⟩ := st
  simp only at hb ht ha hcur hv hmax
  subst hb ht ha
  have h1 : ¬ (lic.max_activations ≤ lic.current_activations) := by omega
  have h2 : ¬ (lic.max_activations ≤ lic.current_activations + 1) := by omega
  have hv2 : ∀ c : Nat, ({ lic with current_activations := c } : License).is_valid now = true :=
    fun c => hv
  have hbeq : (m1 == m2) = false := beq_eq_false_iff_ne.mpr hne
  refine ⟨?_, ?_, ?_⟩ <;>
    simp [authenticate, mintToken, counterKeyOf, countersAfter, hv, hv2, h1, h2, hbeq,
      List.find?, hne]

/-- Witness for shared_token_without_business at a concrete fresh state. -/
theorem shared_token_without_business_witness :
    (authenticate 50 "A" "" "tokA" "x" cexState).1 = AuthResult.ok "tokA"
    ∧ (authenticate 50 "B" "" "tokB" "y" (authenticate 50 "A" "" "tokA" "x" cexState).2).1 =
        AuthResult.ok "tokA" :=
  ⟨(shared_token_without_business cexState 50 "A" "B" "" "" "tokA" "x" "tokB" "y"
      rfl rfl rfl rfl (by decide) (by decide) (by decide)).1,
    (shared_token_without_business cexState 50 "A" "B" "" "" "tokA" "x" "tokB" "y"
      rfl rfl rfl rfl (by decide) (by decide) (by decide)).2.1⟩

theorem take7_bearer (s : String) : ("Bearer " ++ s).data.take 7 = "Bearer ".data := by
  rw [String.data_append]
  have h : ("Bearer ".data).length = 7 := rfl
  rw [← h, List.take_left]

theorem drop7_bearer (s : String) : ("Bearer " ++ s).data.drop 7 = s.data := by
  rw [String.data_append]
  have h : ("Bearer ".data).length = 7 := rfl
  rw [← h, List.drop_left]

theorem string_eq_of_data {s t : String} (h : s.data = t.data) : s = t := by
  cases s
  cases t
  exact congrArg String.mk h

theorem apiToken_is_valid_iff (t : APIToken) (lic : License) (now : Int) :
    t.is_valid lic now = true ↔
      (t.is_active = true ∧ (∀ e, t.expires_at = some e → now ≤ e) ∧
        lic.is_valid now = true) := by
  unfold APIToken.is_valid
  cases hA : t.is_active
  · simp [hA]
  · cases hE : t.expires_at with
    | none => simp [hE]
    | some e =>
      by_cases hlt : e < now
      · simp [hE, hlt]
      · simp [hE, hlt]
        intro _
        omega

/-- Claim C1 (counterexample): the middleware admits a request whose bearer
token is stored, active and backed by a valid license even when expires_at
equals the current instant, although expires_at is then not later than now;
so admission is not equivalent to the condition with a strict expiry bound. -/
theorem token_gate_expiry_boundary_cex :
    (token_required [cexToken] cexLicense 0 (some "Bearer t")).isOk = true
    ∧ cexToken.token = "t"
    ∧ cexToken.is_active = true
    ∧ cexToken.expires_at = some 0
    ∧ cexLicense.is_valid 0 = true
    ∧ ¬ (cexToken.expires_at = none ∨ ∃ e, cexToken.expires_at = some e ∧ 0 < e) := by
  refine ⟨rfl, rfl, rfl, rfl, rfl, ?_⟩
  rintro (h | ⟨e, he, hlt⟩)
  · exact Option.noConfusion h
  · rw [show cexToken.expires_at = some 0 from rfl] at he
    cases he
    exact absurd hlt (by decide)

/-- Claim C1 (amended): on a token-gated route the middleware admits the
request, running the handler, exactly when the Authorization header is the
word Bearer, a space, and the token value of a stored APIToken row that is
active, whose expires_at is absent or not earlier than now, and whose license
is currently valid; in every other case it answers 401 without invoking the
handler. Consequently, after logout sets is_active false on a token, every
request bearing that token is answered 401. -/
theorem token_gate_admits_iff_amended (tokens : List APIToken) (lic : License)
    (now : Int) (header : Option String)
    (hu : (tokens.map (fun t => t.token)).Nodup) :
    ((∃ t, token_required tokens lic now header = .ok t) ↔
      (∃ t, t ∈ tokens ∧ header = some ("Bearer " ++ t.token) ∧ t.is_active = true ∧
        (∀ e, t.expires_at = some e → now ≤ e) ∧ lic.is_valid now = true))
    ∧ (∀ t ∈ tokens, ∀ now2 : Int,
        ∃ err, token_required (logout tokens t) lic now2
          (some ("Bearer " ++ t.token)) = .error err) := by
  constructor
  · constructor
    · rintro ⟨t, ht⟩
      unfold token_required at ht
      by_cases hpre : ((header.getD "").data.take 7) = "Bearer ".data
      case neg => rw [if_neg hpre] at ht; simp at ht
      rw [if_pos hpre] at ht
      cases hfind : tokens.find? (fun x => x.token.data == (header.getD "").data.drop 7) with
      | none => rw [hfind] at ht; simp at ht
      | some u =>
        rw [hfind] at ht
        dsimp only at ht
        by_cases hval : u.is_valid lic now = false
        · rw [if_pos hval] at ht; simp at ht
        rw [if_neg hval] at ht
        have hmem := List.mem_of_find?_eq_some hfind
        have hpu := List.find?_some hfind
        cases hH : header with
        | none =>
          rw [hH] at hpre
          exact absurd hpre (by decide)
        | some s =>
          rw [hH] at hpre hpu
          simp only [Option.getD_some] at hpre hpu
          have hdata : s.data = ("Bearer " ++ u.token).data := by
            rw [String.data_append]
            conv_lhs => rw [← List.take_append_drop 7 s.data]
            rw [hpre]
            exact congrArg ("Bearer ".data ++ ·) (eq_of_beq hpu).symm
          have hvv := (apiToken_is_valid_iff u lic now).mp (by
            cases h : u.is_valid lic now
            · exact absurd h hval
            · rfl)
          exact ⟨u, hmem, congrArg some (string_eq_of_data hdata),
            hvv.1, hvv.2.1, hvv.2.2⟩
    · rintro ⟨t, hmem, hH, hA, hE, hL⟩
      refine ⟨t, ?_⟩
      unfold token_required
      rw [hH]
      simp only [Option.getD_some]
      rw [if_pos (take7_bearer t.token)]
      have hex : ∃ x ∈ tokens,
          (fun x : APIToken => x.token.data == ("Bearer " ++ t.token).data.drop 7) x = true :=
        ⟨t, hmem, by rw [drop7_bearer]; exact beq_self_eq_true t.token.data⟩
      obtain ⟨u, husome⟩ := Option.isSome_iff_exists.mp (List.find?_isSome.mpr hex)
      rw [husome]
      have hpu := List.find?_some husome
      have humem := List.mem_of_find?_eq_some husome
      have hut : u.token = t.token := by
        have hd := eq_of_beq hpu
        rw [drop7_bearer] at hd
        exact string_eq_of_data hd
      have hut2 : u = t := List.inj_on_of_nodup_map hu humem hmem hut
      subst hut2
      dsimp only
      have hnf : ¬ (u.is_valid lic now = false) := by
        rw [(apiToken_is_valid_iff u lic now).mpr ⟨hA, hE, hL⟩]
        simp
      rw [if_neg hnf]
  · intro t hmem now2
    unfold token_required
    simp only [Option.getD_some]
    rw [if_pos (take7_bearer t.token)]
    cases hfind : (logout tokens t).find?
        (fun x => x.token.data == ("Bearer " ++ t.token).data.drop 7) with
    | none => exact ⟨.invalidToken, rfl⟩
    | some u =>
      have hpu := List.find?_some hfind
      have humem := List.mem_of_find?_eq_some hfind
      have hut : u.token = t.token := by
        have hd := eq_of_beq hpu
        rw [drop7_bearer] at hd
        exact string_eq_of_data hd
      unfold logout at humem
      obtain ⟨y, hy, hyu⟩ := List.mem_map.mp humem
      by_cases hyt : (y.token == t.token) = true
      · rw [if_pos hyt] at hyu
        have hui : u.is_active = false := by rw [← hyu]
        dsimp only
        rw [if_pos (by unfold APIToken.is_valid; rw [hui]; simp)]
        exact ⟨.tokenExpired, rfl⟩
      · rw [if_neg hyt] at hyu
        exact absurd (by rw [hyu, hut]; exact beq_self_eq_true t.token) hyt

/-- Witness for token_gate_admits_iff_amended: a stored active token with no
expiry and a valid license is admitted. -/
theorem token_gate_admits_iff_amended_witness :
    ∃ t, token_required [cexValidToken] cexLicense 0
      (some ("Bearer " ++ cexValidToken.token)) = .ok t :=
  ((token_gate_admits_iff_amended [cexValidToken] cexLicense 0
      (some ("Bearer " ++ cexValidToken.token)) (by decide)).1).mpr
    ⟨cexValidToken, by simp, rfl, rfl, fun e h => Option.noConfusion h, rfl⟩

end RetailEase
